import Mathlib

/-!
Verification of the ReShade D3D10 runtime (`source/d3d10/runtime_d3d10.cpp`)
against its natural-language specification.

The C++ code is shallowly embedded: GPU views and resources are identified by
natural-number handles, a shader-resource or render-target slot holding a null
view is `Option.none`, machine integers are `Nat` with explicit `% 2 ^ w`
where wrap-around matters, and fallible operations return `Option`.
-/

set_option maxHeartbeats 1000000

/-! ## Pass shader-resource aliasing filter (`init_effect`, lines 714-737)

A shader-resource view and a render-target view are modelled as the handle of
the underlying GPU resource they reference (`ID3D10View::GetResource`); a null
com_ptr slot is `none`.  The loop resets (`srv.reset()`) every shader-resource
binding whose underlying resource equals the underlying resource of some
non-null render target of the same pass. -/

def filter_pass_shader_resources (render_targets : List (Option Nat))
    (shader_resources : List (Option Nat)) : List (Option Nat) :=
  shader_resources.map fun srv =>
    match srv with
    | none => none
    | some res1 => if some res1 ∈ render_targets then none else some res1

/-! ## Depth clear-index override (`runtime_d3d10` constructor lines 78-86 and
`on_present` lines 264-268)

`UINT` is 32 bits wide; `std::numeric_limits<UINT>::max()` is `2 ^ 32 - 1`. -/

def UINT_MAX : Nat := 4294967295

/-- The load-config subscriber: after reading `DepthBufferClearingNumber` into
`_depth_clear_index_override`, a value of zero is replaced by
`std::numeric_limits<UINT>::max()`. -/
def load_depth_clear_index_override (configured : Nat) : Nat :=
  if configured = 0 then UINT_MAX else configured

/-- The clear-index argument `on_present` hands to
`tracker.find_best_depth_texture`:
`_preserve_depth_buffers ? _depth_clear_index_override : 0`. -/
def find_best_clear_index_arg (preserve_depth_buffers : Bool)
    (depth_clear_index_override : Nat) : Nat :=
  if preserve_depth_buffers then depth_clear_index_override else 0

/-! ## Lazy D3D compiler library load (`init_effect`, lines 375-386)

The member `_d3d_compiler` is a module handle (`none` = `nullptr`).  Handles
`47` and `43` stand for the modules `d3dcompiler_47.dll` and
`d3dcompiler_43.dll`; the environment records which of the two libraries can
be loaded. -/

structure compiler_env where
  dll_47_available : Bool
  dll_43_available : Bool

/-- The two `LoadLibraryW` attempts guarded by `_d3d_compiler == nullptr`. -/
def load_d3d_compiler (d3d_compiler : Option Nat) (env : compiler_env) :
    Option Nat :=
  let c1 := match d3d_compiler with
    | none => if env.dll_47_available then some 47 else none
    | some h => some h
  match c1 with
  | none => if env.dll_43_available then some 43 else none
  | some h => some h

structure compiler_load_outcome where
  d3d_compiler : Option Nat
  ok : Bool
  logged_missing_compiler_error : Bool

/-- The head of `init_effect`: load the compiler library lazily; when it is
still `nullptr` afterwards, log a user-visible error and return `false`. -/
def init_effect_compiler_step (d3d_compiler : Option Nat)
    (env : compiler_env) : compiler_load_outcome :=
  match load_d3d_compiler d3d_compiler env with
  | none => { d3d_compiler := none, ok := false,
              logged_missing_compiler_error := true }
  | some h => { d3d_compiler := some h, ok := true,
                logged_missing_compiler_error := false }

/-- Iterated effect-load attempts: the compiler handle persists in
`_d3d_compiler` across calls, the environment is fixed for the process
lifetime. -/
def init_effect_compiler_attempts (env : compiler_env) :
    Nat → Option Nat → Option Nat
  | 0, c => c
  | n + 1, c => init_effect_compiler_attempts env n
      (init_effect_compiler_step c env).d3d_compiler

/-! ## Technique GPU-timing state machine (`render_technique`, lines 935-955
and 1067-1073)

Per technique there is one `query_in_flight` flag, a begin/end timestamp-query
pair and one disjoint query.  A call to `render_technique` polls the three
query results non-blockingly when a pair is in flight; `poll = none` models
the case where not all three `GetData` calls return `S_OK`, `poll = some r`
the case where all three results are available.  All `UINT64` arithmetic wraps
modulo `2 ^ 64`. -/

structure poll_result where
  disjoint : Bool
  frequency : Nat
  timestamp_beg : Nat
  timestamp_end : Nat

/-- `(timestamp1 - timestamp0) * 1'000'000'000 / disjoint.Frequency` in
`UINT64` arithmetic (operands below `2 ^ 64`). -/
def elapsed_ns (t0 t1 freq : Nat) : Nat :=
  (t1 + 2 ^ 64 - t0) % 2 ^ 64 * 1000000000 % 2 ^ 64 / freq

structure timing_outcome where
  query_in_flight : Bool
  idle_after_poll : Bool
  samples_appended : List Nat
  issued_begin_pair : Bool
  issued_end_pair : Bool

/-- The timing logic of one `render_technique` call: poll when in flight
(collecting at most one duration sample, discarded when the interval was
disjoint), issue a new begin/end pair around the passes exactly when the
technique is idle after the poll, and leave with `query_in_flight = true`. -/
def render_technique_timing (query_in_flight : Bool)
    (poll : Option poll_result) : timing_outcome :=
  let after_poll : Bool × List Nat :=
    match query_in_flight, poll with
    | true, some r =>
      (false, if r.disjoint then []
              else [elapsed_ns r.timestamp_beg r.timestamp_end r.frequency])
    | true, none => (true, [])
    | false, _ => (false, [])
  { query_in_flight := true
    idle_after_poll := !after_poll.1
    samples_appended := after_poll.2
    issued_begin_pair := !after_poll.1
    issued_end_pair := !after_poll.1 }

/-! ## Texture formats and shader-resource-view creation (`init_texture`,
lines 776-885)

`make_dxgi_format_srgb` and `make_dxgi_format_normal` live in
`dxgi/format_utils.hpp`, which is not among the sources under review; they are
modelled from the spec.  Only the DXGI formats reachable from the
`reshadefx::texture_format` switch in `init_texture` (plus the swapchain BGRA
family) are represented. -/

inductive texture_format
  | r8 | r16f | r32f | rg8 | rg16 | rg16f | rg32f
  | rgba8 | rgba16 | rgba16f | rgba32f | rgb10a2
deriving DecidableEq

inductive dxgi_format
  | r8_unorm | r16_float | r32_float | r8g8_unorm
  | r16g16_unorm | r16g16_float | r32g32_float
  | r8g8b8a8_typeless | r8g8b8a8_unorm | r8g8b8a8_unorm_srgb
  | r16g16b16a16_unorm | r16g16b16a16_float | r32g32b32a32_float
  | r10g10b10a2_unorm
  | b8g8r8a8_typeless | b8g8r8a8_unorm | b8g8r8a8_unorm_srgb
deriving DecidableEq

/-- Modelled from the spec: `make_dxgi_format_srgb` of `dxgi/format_utils.hpp`
is not part of the sources under review.  Per the spec, a format with a
distinct sRGB encoding (the 8-bit four-channel families) maps to that
encoding, every other format maps to itself. -/
def make_dxgi_format_srgb : dxgi_format → dxgi_format
  | .r8g8b8a8_typeless | .r8g8b8a8_unorm | .r8g8b8a8_unorm_srgb =>
      .r8g8b8a8_unorm_srgb
  | .b8g8r8a8_typeless | .b8g8r8a8_unorm | .b8g8r8a8_unorm_srgb =>
      .b8g8r8a8_unorm_srgb
  | f => f

/-- Modelled from the spec: `make_dxgi_format_normal` of
`dxgi/format_utils.hpp` is not part of the sources under review.  It maps the
typed and typeless variants of the 8-bit four-channel families to the linear
(UNORM) view format and every other format to itself. -/
def make_dxgi_format_normal : dxgi_format → dxgi_format
  | .r8g8b8a8_typeless | .r8g8b8a8_unorm | .r8g8b8a8_unorm_srgb =>
      .r8g8b8a8_unorm
  | .b8g8r8a8_typeless | .b8g8r8a8_unorm | .b8g8r8a8_unorm_srgb =>
      .b8g8r8a8_unorm
  | f => f

/-- The `switch (texture.format)` of `init_texture` choosing
`desc.Format`. -/
def texture_format_to_dxgi : texture_format → dxgi_format
  | .r8 => .r8_unorm
  | .r16f => .r16_float
  | .r32f => .r32_float
  | .rg8 => .r8g8_unorm
  | .rg16 => .r16g16_unorm
  | .rg16f => .r16g16_float
  | .rg32f => .r32g32_float
  | .rgba8 => .r8g8b8a8_typeless
  | .rgba16 => .r16g16b16a16_unorm
  | .rgba16f => .r16g16b16a16_float
  | .rgba32f => .r32g32b32a32_float
  | .rgb10a2 => .r10g10b10a2_unorm

structure tex_view_alloc where
  srv_normal : Nat
  srv_srgb : Nat
  views_allocated : Nat

/-- Shader-resource-view creation for a non-reference effect texture in
`init_texture`: `srv[0]` is always created; `srv[1]` is created (as a second,
distinct view object) only when `make_dxgi_format_srgb(desc.Format)` differs
from `desc.Format`, and otherwise shares the `srv[0]` object.  View objects
are numbered in creation order. -/
def init_texture_views (fmt : texture_format) : tex_view_alloc :=
  let desc_format := texture_format_to_dxgi fmt
  if make_dxgi_format_srgb desc_format ≠ desc_format then
    { srv_normal := 0, srv_srgb := 1, views_allocated := 2 }
  else
    { srv_normal := 0, srv_srgb := 0, views_allocated := 1 }

/-- Whether the storage format chosen for an effect texture has a distinct
sRGB encoding. -/
def has_distinct_srgb (fmt : texture_format) : Bool :=
  make_dxgi_format_srgb (texture_format_to_dxgi fmt) != texture_format_to_dxgi fmt

/-! ## Entry-point compilation loop (`init_effect`, lines 396-450)

One `entry_point_result` records what the platform compiler and the device
return for one entry point: the diagnostic blob (`d3d_errors`, `none` when the
compiler produced no diagnostics), whether `D3DCompile` succeeded and whether
`CreateVertexShader`/`CreatePixelShader` succeeded.  Diagnostic text is a byte
list. -/

structure entry_point_result where
  is_pixel_shader : Bool
  diagnostics : Option (List Nat)
  compile_ok : Bool
  create_ok : Bool

/-- The bytes appended to `effect.errors` for one entry point (nothing when
`d3d_errors == nullptr`). -/
def entry_point_diag (ep : entry_point_result) : List Nat :=
  ep.diagnostics.getD []

/-- The `for (const auto &entry_point : effect.module.entry_points)` loop:
append the compiler diagnostics to the error log unconditionally, then return
`false` as soon as compilation or shader-object creation fails. -/
def compile_entry_points : List entry_point_result → List Nat → List Nat × Bool
  | [], errors => (errors, true)
  | ep :: rest, errors =>
    let errors := errors ++ entry_point_diag ep
    if ep.compile_ok then
      if ep.create_ok then compile_entry_points rest errors
      else (errors, false)
    else (errors, false)

/-- Diagnostics of the entry points processed before the loop returns: all of
them on success, those up to and including the first failing entry point
otherwise. -/
def diags_until_failure : List entry_point_result → List Nat
  | [] => []
  | ep :: rest => entry_point_diag ep ++
      (if ep.compile_ok && ep.create_ok then diags_until_failure rest else [])

structure init_effect_outcome where
  errors : List Nat
  ok : Bool
  techniques_attached : Bool

/-- `init_effect` up to (and including) the decision whether the technique
loop that attaches `d3d10_technique_data` to the effect's techniques is
reached: it runs only when the whole entry-point loop succeeded. -/
def init_effect_model (eps : List entry_point_result)
    (prior_errors : List Nat) : init_effect_outcome :=
  let r := compile_entry_points eps prior_errors
  { errors := r.1, ok := r.2, techniques_attached := r.2 }

/-! ## Screenshot conversion (`capture_screenshot`, lines 342-368)

In the 10-bit branch a source row is a list of 32-bit `rgba` words; in the
8-bit branch it is a list of bytes (the `memcpy`d pixel data). -/

/-- The body of the 10-bit loop for one packed `R10G10B10A2` word. -/
def convert_10bit_pixel (rgba : Nat) : List Nat :=
  [((rgba &&& 0x3FF) / 4) &&& 0xFF,
   (((rgba &&& 0xFFC00) >>> 10) / 4) &&& 0xFF,
   (((rgba &&& 0x3FF00000) >>> 20) / 4) &&& 0xFF,
   0xFF]

def convert_10bit_row : List Nat → List Nat
  | [] => []
  | w :: ws => convert_10bit_pixel w ++ convert_10bit_row ws

/-- The 8-bit branch for one row: `memcpy`, then per pixel force the alpha
byte to `0xFF` and swap the first and third byte when the back-buffer format
is one of the two `B8G8R8A8` formats. -/
def convert_8bit_row (is_bgra : Bool) : List Nat → List Nat
  | b0 :: b1 :: b2 :: _ :: rest =>
    (if is_bgra then [b2, b1, b0, 0xFF] else [b0, b1, b2, 0xFF]) ++
      convert_8bit_row is_bgra rest
  | l => l

/-- The row loop: the output buffer advances by one row pitch per source row,
so output row `y` is the converted source row `y`. -/
def capture_screenshot_rows (is_10bit is_bgra : Bool)
    (rows : List (List Nat)) : List (List Nat) :=
  rows.map fun row =>
    if is_10bit then convert_10bit_row row else convert_8bit_row is_bgra row

/-! ## Texture upload repacking (`upload_texture`, lines 886-923)

Source pixel data is always 4-channel 8-bit.  The destination's upload buffer
is `none` when the destination format is unsupported (the function logs an
error and returns before `UpdateSubresource`, writing nothing). -/

def repack_r8 : List Nat → List Nat
  | b0 :: _ :: _ :: _ :: rest => b0 :: repack_r8 rest
  | _ => []

def repack_rg8 : List Nat → List Nat
  | b0 :: b1 :: _ :: _ :: rest => b0 :: b1 :: repack_rg8 rest
  | _ => []

/-- The `switch (texture.format)` of `upload_texture` producing the bytes
handed to `UpdateSubresource`. -/
def upload_texture_data : texture_format → List Nat → Option (List Nat)
  | .r8, pixels => some (repack_r8 pixels)
  | .rg8, pixels => some (repack_rg8 pixels)
  | .rgba8, pixels => some pixels
  | _, _ => none

/-! ## Effect depth-stencil binding and clearing (`render_technique`,
lines 986-1022)

Only the pass attributes that feed the depth-stencil decision are modelled:
whether `pass_info.render_target_names[0]` is non-empty, the declared
viewport, and the stencil-enable flag.  `_width`/`_height` are the main
output dimensions. -/

structure pass_info10 where
  has_named_render_target : Bool
  viewport_width : Nat
  viewport_height : Nat
  stencil_enable : Bool
deriving DecidableEq

/-- `init_effect` lines 603-607: a pass without a named render target has its
viewport defaulted to the full output size. -/
def effective_pass (w h : Nat) (p : pass_info10) : pass_info10 :=
  if p.has_named_render_target then p
  else { p with viewport_width := w, viewport_height := h }

structure pass_exec where
  bound_effect_depthstencil : Bool
  cleared_effect_stencil : Bool
deriving DecidableEq

/-- One pass of the `render_technique` pass loop, restricted to the
depth-stencil decisions: when the pass viewport equals the output size,
`OMSetRenderTargets` receives `_effect_depthstencil` exactly if the pass
enables stencil, and the stencil plane is cleared when the pass enables
stencil and `is_effect_stencil_cleared` is not yet set; otherwise the render
targets are bound with a null depth-stencil.  Returns the pass record and the
updated `is_effect_stencil_cleared` flag. -/
def exec_pass (w h : Nat) (cleared : Bool) (p : pass_info10) :
    pass_exec × Bool :=
  if p.viewport_width = w ∧ p.viewport_height = h then
    let do_clear := p.stencil_enable && !cleared
    ({ bound_effect_depthstencil := p.stencil_enable,
       cleared_effect_stencil := do_clear }, cleared || do_clear)
  else
    ({ bound_effect_depthstencil := false,
       cleared_effect_stencil := false }, cleared)

def exec_passes (w h : Nat) : List pass_info10 → Bool → List pass_exec
  | [], _ => []
  | p :: rest, cleared =>
    (exec_pass w h cleared p).1 ::
      exec_passes w h rest (exec_pass w h cleared p).2

/-- One technique invocation: `is_effect_stencil_cleared` starts `false`, and
the passes run with the viewports produced by `init_effect`. -/
def render_technique_stencil (w h : Nat) (passes : List pass_info10) :
    List pass_exec :=
  exec_passes w h (passes.map (effective_pass w h)) false

/-- The condition under which the code binds `_effect_depthstencil` for a
pass: viewport equal to the output size and stencil enabled. -/
def binds_effect_depthstencil (w h : Nat) (p : pass_info10) : Bool :=
  (decide (p.viewport_width = w) && decide (p.viewport_height = h)) &&
    p.stencil_enable

/-- The claim's condition, in the spec's words: a full-viewport pass
*targeting the main output* (no named render target) with stencil testing
enabled. -/
def spec_binds_effect_depthstencil (w h : Nat) (p : pass_info10) : Bool :=
  (decide (p.viewport_width = w) && decide (p.viewport_height = h)) &&
    !p.has_named_render_target && p.stencil_enable

/-! ## Sampler-state cache (`init_effect` lines 495-536, `unload_effect`
lines 743-761, `unload_effects` lines 762-774)

The `D3D10_SAMPLER_DESC` is zero-initialized (`= {}`) and then populated from
the `reshadefx::sampler_info`, with `MaxAnisotropy = 1`, `ComparisonFunc =
D3D10_COMPARISON_NEVER` (numeric value 1) and `BorderColor` left zero.  The
hash is FNV-1a over the raw descriptor bytes in `size_t` (64-bit) arithmetic,
and `_effect_sampler_states` is an `unordered_map` keyed by this hash value
alone.  The float fields (`MipLODBias`, `MinLOD`, `MaxLOD`) are represented
by the raw 32-bit patterns of their IEEE-754 encodings, since the hash
consumes raw bytes; enum fields are their 32-bit numeric values.  The
descriptor is 52 bytes with no padding, serialized little-endian. -/

structure sampler_desc where
  Filter : Nat
  AddressU : Nat
  AddressV : Nat
  AddressW : Nat
  MipLODBias : Nat
  MinLOD : Nat
  MaxLOD : Nat

/-- The four bytes of one 32-bit field, least significant first. -/
def le_bytes4 (x : Nat) : List Nat :=
  [x % 256, x / 256 % 256, x / 65536 % 256, x / 16777216 % 256]

/-- `reinterpret_cast<const uint8_t *>(&desc)` over the full
`sizeof(D3D10_SAMPLER_DESC)`: Filter, AddressU, AddressV, AddressW,
MipLODBias, MaxAnisotropy (1), ComparisonFunc (NEVER = 1), BorderColor[4]
(zero), MinLOD, MaxLOD. -/
def sampler_desc_bytes (d : sampler_desc) : List Nat :=
  le_bytes4 d.Filter ++ le_bytes4 d.AddressU ++ le_bytes4 d.AddressV ++
  le_bytes4 d.AddressW ++ le_bytes4 d.MipLODBias ++ le_bytes4 1 ++
  le_bytes4 1 ++ le_bytes4 0 ++ le_bytes4 0 ++ le_bytes4 0 ++ le_bytes4 0 ++
  le_bytes4 d.MinLOD ++ le_bytes4 d.MaxLOD

/-- One step of `desc_hash = (desc_hash * 16777619) ^ byte` in `size_t`
(64-bit) arithmetic. -/
def fnv_step (h b : Nat) : Nat := (h * 16777619 % 2 ^ 64) ^^^ b

/-- The loop `for (size_t i = 0; i < sizeof(desc); ++i)` starting from the
FNV offset basis 2166136261. -/
def fnv1a_hash (bytes : List Nat) : Nat := bytes.foldl fnv_step 2166136261

/-- A family of fully populated sampler descriptors whose three float fields
range over all 96 bits of `n`; used to exhibit that the 64-bit content hash
cannot separate all descriptor contents. -/
def collision_desc (n : Nat) : sampler_desc :=
  { Filter := 21, AddressU := 3, AddressV := 3, AddressW := 3,
    MipLODBias := n % 4294967296,
    MinLOD := n / 4294967296 % 4294967296,
    MaxLOD := n / 18446744073709551616 % 4294967296 }

/-- `_effect_sampler_states` together with a counter handing out fresh
sampler-object handles in creation order. -/
structure sampler_cache where
  entries : List (Nat × Nat)
  next_handle : Nat
deriving DecidableEq

def empty_sampler_cache : sampler_cache :=
  { entries := [], next_handle := 0 }

/-- Lines 508-535: hash the descriptor bytes, return the cached sampler for
that hash if present, otherwise create a new sampler object and insert it
under the hash. -/
def cache_get_or_create (c : sampler_cache) (d : sampler_desc) :
    Nat × sampler_cache :=
  let h := fnv1a_hash (sampler_desc_bytes d)
  match c.entries.lookup h with
  | some handle => (handle, c)
  | none =>
    (c.next_handle,
     { entries := (h, c.next_handle) :: c.entries,
       next_handle := c.next_handle + 1 })

structure technique_state where
  effect_index : Nat
  impl : Option Nat

/-- The runtime state touched by the unload paths: the technique list with
per-technique GPU state handles, the per-effect constant-buffer slots, and
the shared sampler cache. -/
structure runtime_effect_state where
  techniques : List technique_state
  effect_data : List (Option Nat)
  effect_sampler_states : sampler_cache

/-- `unload_effect`: frees the technique state of the one effect and resets
its constant buffer; `_effect_sampler_states` is not touched. -/
def unload_effect (s : runtime_effect_state) (index : Nat) :
    runtime_effect_state :=
  { techniques := s.techniques.map fun t =>
      if t.effect_index = index then { t with impl := none } else t,
    effect_data := s.effect_data.set index none,
    effect_sampler_states := s.effect_sampler_states }

/-- `unload_effects`: frees every technique state, clears `_effect_data` and
clears `_effect_sampler_states`. -/
def unload_effects (s : runtime_effect_state) : runtime_effect_state :=
  { techniques := s.techniques.map fun t => { t with impl := none },
    effect_data := [],
    effect_sampler_states := empty_sampler_cache }

/-! # Theorems -/

/-- **C1.** Every pass built by `init_effect` has its shader-resource list
filtered against the pass's render targets: a binding whose underlying
resource is shared with any bound render target is reset to null, a binding
sharing no storage with any render target is kept unchanged, and slots are
neither added nor removed.  Hence no entry of the final bound shader-resource
list aliases a same-pass render target's storage. -/
theorem pass_shader_resources_never_alias_render_targets
    (render_targets shader_resources : List (Option Nat)) :
    (∀ res : Nat,
      some res ∈ filter_pass_shader_resources render_targets shader_resources →
      some res ∉ render_targets) ∧
    (∀ res : Nat, some res ∈ shader_resources → some res ∉ render_targets →
      some res ∈ filter_pass_shader_resources render_targets shader_resources) ∧
    (filter_pass_shader_resources render_targets shader_resources).length =
      shader_resources.length := by
  refine ⟨?_, ?_, by simp [filter_pass_shader_resources]⟩
  · intro res hmem hrt
    rw [filter_pass_shader_resources, List.mem_map] at hmem
    obtain ⟨srv, _, heq⟩ := hmem
    match srv with
    | none => simp at heq
    | some r =>
      simp only at heq
      split at heq
      · exact absurd heq (by simp)
      · cases heq; contradiction
  · intro res hmem hrt
    rw [filter_pass_shader_resources, List.mem_map]
    exact ⟨some res, hmem, by simp [hrt]⟩

theorem pass_shader_resources_never_alias_render_targets_witness :
    (∀ res : Nat,
      some res ∈ filter_pass_shader_resources [some 5, none] [some 5, some 7, none] →
      some res ∉ [some 5, none]) ∧
    some 7 ∈ filter_pass_shader_resources [some 5, none] [some 5, some 7, none] := by
  refine ⟨(pass_shader_resources_never_alias_render_targets _ _).1, ?_⟩
  exact (pass_shader_resources_never_alias_render_targets
    [some 5, none] [some 5, some 7, none]).2.1 7 (by decide) (by decide)

/-- **C4.** A configured depth-clear-index of zero is replaced by the maximum
representable `UINT` when the configuration is loaded, the stored override is
never zero afterwards, and therefore the clear-index value `on_present` passes
to the depth tracker is never the ambiguous zero while depth-buffer
preservation is enabled (it is exactly zero when preservation is disabled). -/
theorem depth_clear_index_zero_resolves_to_uint_max (configured : Nat) :
    load_depth_clear_index_override 0 = UINT_MAX ∧
    load_depth_clear_index_override configured ≠ 0 ∧
    find_best_clear_index_arg true (load_depth_clear_index_override configured) ≠ 0 ∧
    find_best_clear_index_arg false (load_depth_clear_index_override configured) = 0 := by
  refine ⟨rfl, ?_, ?_, rfl⟩ <;>
    simp only [load_depth_clear_index_override, find_best_clear_index_arg, if_true] <;>
    split <;> simp [UINT_MAX] <;> omega

/-- **C9.** The compiler library is loaded lazily (an already-loaded handle is
kept without a new load attempt), `d3dcompiler_47.dll` is tried first with
`d3dcompiler_43.dll` as fallback, and when neither can be loaded the effect
load fails with a logged user-visible error; with both libraries missing every
subsequent effect-load attempt fails the same way for the whole process
lifetime. -/
theorem missing_d3d_compiler_is_fatal (env : compiler_env) :
    (∀ h : Nat, init_effect_compiler_step (some h) env =
      { d3d_compiler := some h, ok := true,
        logged_missing_compiler_error := false }) ∧
    (env.dll_47_available = true →
      (init_effect_compiler_step none env).d3d_compiler = some 47) ∧
    (env.dll_47_available = false → env.dll_43_available = true →
      (init_effect_compiler_step none env).d3d_compiler = some 43) ∧
    (env.dll_47_available = false → env.dll_43_available = false →
      ∀ n : Nat,
        init_effect_compiler_attempts env n none = none ∧
        init_effect_compiler_step
          (init_effect_compiler_attempts env n none) env =
          { d3d_compiler := none, ok := false,
            logged_missing_compiler_error := true }) := by
  refine ⟨?_, ?_, ?_, ?_⟩
  · intro h; rfl
  · intro h47
    simp [init_effect_compiler_step, load_d3d_compiler, h47]
  · intro h47 h43
    simp [init_effect_compiler_step, load_d3d_compiler, h47, h43]
  · intro h47 h43
    have hstep : init_effect_compiler_step none env =
        { d3d_compiler := none, ok := false,
          logged_missing_compiler_error := true } := by
      simp [init_effect_compiler_step, load_d3d_compiler, h47, h43]
    intro n
    induction n with
    | zero => exact ⟨rfl, hstep⟩
    | succ k ih =>
      have heq : init_effect_compiler_attempts env (k + 1) none =
          init_effect_compiler_attempts env k none := by
        simp [init_effect_compiler_attempts, hstep]
      exact ⟨heq ▸ ih.1, heq ▸ ih.2⟩

theorem missing_d3d_compiler_is_fatal_witness :
    (init_effect_compiler_attempts ⟨false, false⟩ 3 none = none ∧
      init_effect_compiler_step
        (init_effect_compiler_attempts ⟨false, false⟩ 3 none) ⟨false, false⟩ =
        { d3d_compiler := none, ok := false,
          logged_missing_compiler_error := true }) ∧
    (init_effect_compiler_step none ⟨false, true⟩).d3d_compiler = some 43 :=
  ⟨(missing_d3d_compiler_is_fatal ⟨false, false⟩).2.2.2 rfl rfl 3,
   (missing_d3d_compiler_is_fatal ⟨false, true⟩).2.2.1 rfl rfl⟩

/-- **C3.** The per-technique timing state machine: entering
`render_technique` in flight with an incomplete non-blocking poll keeps the
technique in flight and issues no new timestamp pair that call; when all
three results are available the technique moves to idle and exactly one
duration sample is appended unless the disjoint flag is set, in which case
the sample is discarded and not retried; whenever the technique is idle a new
begin/end pair is issued around the passes and the technique leaves the call
in flight. -/
theorem render_technique_timing_state_machine (f : Bool)
    (p : Option poll_result) :
    (render_technique_timing f p).query_in_flight = true ∧
    (f = true → p = none →
      (render_technique_timing f p).idle_after_poll = false ∧
      (render_technique_timing f p).samples_appended = [] ∧
      (render_technique_timing f p).issued_begin_pair = false ∧
      (render_technique_timing f p).issued_end_pair = false) ∧
    (∀ r : poll_result, f = true → p = some r →
      (render_technique_timing f p).idle_after_poll = true ∧
      (render_technique_timing f p).issued_begin_pair = true ∧
      (render_technique_timing f p).issued_end_pair = true ∧
      (render_technique_timing f p).samples_appended =
        (if r.disjoint then []
         else [elapsed_ns r.timestamp_beg r.timestamp_end r.frequency]) ∧
      (render_technique_timing f p).samples_appended.length =
        (if r.disjoint then 0 else 1)) ∧
    (f = false →
      (render_technique_timing f p).samples_appended = [] ∧
      (render_technique_timing f p).issued_begin_pair = true ∧
      (render_technique_timing f p).issued_end_pair = true) := by
  refine ⟨?_, ?_, ?_, ?_⟩
  · cases f <;> cases p <;> rfl
  · rintro rfl rfl; exact ⟨rfl, rfl, rfl, rfl⟩
  · rintro r rfl rfl
    refine ⟨rfl, rfl, rfl, rfl, ?_⟩
    simp only [render_technique_timing]
    split <;> rfl
  · rintro rfl; cases p <;> exact ⟨rfl, rfl, rfl⟩

theorem render_technique_timing_state_machine_witness :
    ((render_technique_timing true none).issued_begin_pair = false ∧
      (render_technique_timing true none).query_in_flight = true) ∧
    (render_technique_timing true (some ⟨false, 1000, 100, 350⟩)).samples_appended =
      [elapsed_ns 100 350 1000] ∧
    (render_technique_timing false none).issued_begin_pair = true :=
  ⟨⟨((render_technique_timing_state_machine true none).2.1 rfl rfl).2.2.1,
    (render_technique_timing_state_machine true none).1⟩,
   by
    have h := ((render_technique_timing_state_machine true
      (some ⟨false, 1000, 100, 350⟩)).2.2.1 ⟨false, 1000, 100, 350⟩ rfl rfl).2.2.2.1
    simpa using h,
   ((render_technique_timing_state_machine false none).2.2.2 rfl).2.1⟩

/-- **C5.** For every effect-declared (non-reference) texture format: when the
chosen storage format has no distinct sRGB encoding, the normal and gamma
shader-resource views are the identical object and only one view is
allocated; when it does, the two views are distinct objects.  Among the
formats an effect can declare, exactly `rgba8` (stored as
`R8G8B8A8_TYPELESS`) has a distinct sRGB encoding. -/
theorem texture_srgb_view_sharing (fmt : texture_format) :
    (has_distinct_srgb fmt = false →
      (init_texture_views fmt).srv_srgb = (init_texture_views fmt).srv_normal ∧
      (init_texture_views fmt).views_allocated = 1) ∧
    (has_distinct_srgb fmt = true →
      (init_texture_views fmt).srv_srgb ≠ (init_texture_views fmt).srv_normal ∧
      (init_texture_views fmt).views_allocated = 2) ∧
    (has_distinct_srgb fmt = true ↔ fmt = texture_format.rgba8) := by
  cases fmt <;> exact ⟨by decide, by decide, by decide⟩

theorem texture_srgb_view_sharing_witness :
    ((init_texture_views texture_format.rgba8).srv_srgb ≠
      (init_texture_views texture_format.rgba8).srv_normal ∧
      (init_texture_views texture_format.rgba8).views_allocated = 2) ∧
    ((init_texture_views texture_format.r8).srv_srgb =
      (init_texture_views texture_format.r8).srv_normal ∧
      (init_texture_views texture_format.r8).views_allocated = 1) :=
  ⟨(texture_srgb_view_sharing texture_format.rgba8).2.1 (by decide),
   (texture_srgb_view_sharing texture_format.r8).1 (by decide)⟩

/-- The entry-point loop in closed form: the error log is extended by the
diagnostics of the entry points processed before the loop stopped, and the
loop succeeds exactly when every entry point compiled and its shader object
was created. -/
theorem compile_entry_points_eq (eps : List entry_point_result)
    (errors : List Nat) :
    compile_entry_points eps errors =
      (errors ++ diags_until_failure eps,
       eps.all fun ep => ep.compile_ok && ep.create_ok) := by
  induction eps generalizing errors with
  | nil => simp [compile_entry_points, diags_until_failure]
  | cons ep rest ih =>
    simp only [compile_entry_points, diags_until_failure, List.all_cons]
    cases hc : ep.compile_ok <;> cases hr : ep.create_ok <;>
      simp [hc, hr, ih, List.append_assoc]

theorem diags_until_failure_of_all_ok (eps : List entry_point_result) :
    (∀ ep ∈ eps, ep.compile_ok = true ∧ ep.create_ok = true) →
    diags_until_failure eps = (eps.map entry_point_diag).flatten := by
  induction eps with
  | nil => intro _; simp [diags_until_failure]
  | cons ep rest ih =>
    intro h
    have hep := h ep (List.mem_cons_self ep rest)
    simp [diags_until_failure, hep.1, hep.2,
      ih fun e he => h e (List.mem_cons_of_mem _ he)]

/-- **C6.** During effect compilation the platform compiler's diagnostic text
for every processed entry point is appended verbatim to the effect's error
log — on success the log gains every entry point's diagnostics, warnings
included — and a failure of any single entry point makes `init_effect` return
`false` at that entry point, so the technique loop never runs and no (partial)
shader set is attached to any technique of the effect. -/
theorem effect_compile_diagnostics_and_abort
    (eps : List entry_point_result) (prior_errors : List Nat) :
    (init_effect_model eps prior_errors).errors =
        prior_errors ++ diags_until_failure eps ∧
    ((init_effect_model eps prior_errors).ok = true ↔
      ∀ ep ∈ eps, ep.compile_ok = true ∧ ep.create_ok = true) ∧
    ((∀ ep ∈ eps, ep.compile_ok = true ∧ ep.create_ok = true) →
      (init_effect_model eps prior_errors).errors =
        prior_errors ++ (eps.map entry_point_diag).flatten) ∧
    ((init_effect_model eps prior_errors).techniques_attached = true ↔
      (init_effect_model eps prior_errors).ok = true) := by
  refine ⟨?_, ?_, ?_, Iff.rfl⟩
  · simp [init_effect_model, compile_entry_points_eq]
  · simp [init_effect_model, compile_entry_points_eq, List.all_eq_true,
      Bool.and_eq_true]
  · intro h
    simp [init_effect_model, compile_entry_points_eq,
      diags_until_failure_of_all_ok eps h]

theorem effect_compile_diagnostics_and_abort_witness :
    (init_effect_model
        [⟨false, some [87, 65], true, true⟩, ⟨true, some [69, 82], false, true⟩,
         ⟨true, some [88], true, true⟩] []).errors = [87, 65, 69, 82] ∧
    (init_effect_model
        [⟨false, some [87, 65], true, true⟩, ⟨true, some [69, 82], false, true⟩,
         ⟨true, some [88], true, true⟩] []).ok = false ∧
    (init_effect_model
        [⟨false, some [87, 65], true, true⟩, ⟨true, some [69, 82], false, true⟩,
         ⟨true, some [88], true, true⟩] []).techniques_attached = false ∧
    (init_effect_model [⟨false, some [87, 65], true, true⟩] []).errors =
      [87, 65] := by
  have h1 := effect_compile_diagnostics_and_abort
    [⟨false, some [87, 65], true, true⟩, ⟨true, some [69, 82], false, true⟩,
     ⟨true, some [88], true, true⟩] []
  have h2 := (effect_compile_diagnostics_and_abort
    [⟨false, some [87, 65], true, true⟩] []).2.2.1 (by decide)
  refine ⟨?_, ?_, ?_, by simpa using h2⟩
  · simpa [diags_until_failure, entry_point_diag] using h1.1
  · have := h1.2.1
    by_contra hok
    rw [Bool.not_eq_false] at hok
    have := this.mp hok ⟨true, some [69, 82], false, true⟩ (by simp)
    simp at this
  · have := h1.2.2.2
    by_contra hat
    rw [Bool.not_eq_false] at hat
    have hok := this.mp hat
    have := h1.2.1.mp hok ⟨true, some [69, 82], false, true⟩ (by simp)
    simp at this

theorem repack_r8_getElem? (pixels : List Nat) :
    pixels.length % 4 = 0 → ∀ k, (repack_r8 pixels)[k]? = pixels[4 * k]? := by
  induction pixels using repack_r8.induct with
  | case1 b0 b1 b2 b3 rest ih =>
    intro hlen k
    simp only [List.length_cons] at hlen
    have hlen' : rest.length % 4 = 0 := by omega
    cases k with
    | zero => simp [repack_r8]
    | succ k =>
      have h4 : 4 * (k + 1) = 4 * k + 1 + 1 + 1 + 1 := by omega
      simp only [repack_r8, h4, List.getElem?_cons_succ]
      exact ih hlen' k
  | case2 l h =>
    intro hlen k
    match l, h with
    | [], _ => simp [repack_r8]
    | [a], _ => simp at hlen
    | [a, b], _ => simp at hlen
    | [a, b, c], _ => simp at hlen
    | a :: b :: c :: d :: r, h => exact absurd rfl (h a b c d r)

theorem repack_r8_length (pixels : List Nat) :
    (repack_r8 pixels).length = pixels.length / 4 := by
  induction pixels using repack_r8.induct with
  | case1 b0 b1 b2 b3 rest ih => simp [repack_r8, ih]; omega
  | case2 l h =>
    match l, h with
    | [], _ => simp [repack_r8]
    | [a], _ => simp [repack_r8]
    | [a, b], _ => simp [repack_r8]
    | [a, b, c], _ => simp [repack_r8]
    | a :: b :: c :: d :: r, h => exact absurd rfl (h a b c d r)

theorem repack_rg8_getElem? (pixels : List Nat) :
    pixels.length % 4 = 0 → ∀ k,
      (repack_rg8 pixels)[2 * k]? = pixels[4 * k]? ∧
      (repack_rg8 pixels)[2 * k + 1]? = pixels[4 * k + 1]? := by
  induction pixels using repack_rg8.induct with
  | case1 b0 b1 b2 b3 rest ih =>
    intro hlen k
    simp only [List.length_cons] at hlen
    have hlen' : rest.length % 4 = 0 := by omega
    cases k with
    | zero => simp [repack_rg8]
    | succ k =>
      have h4 : 4 * (k + 1) = 4 * k + 1 + 1 + 1 + 1 := by omega
      have h2 : 2 * (k + 1) = 2 * k + 1 + 1 := by omega
      have h2' : 2 * (k + 1) + 1 = 2 * k + 1 + 1 + 1 := by omega
      simp only [repack_rg8, h4, h2, h2', List.getElem?_cons_succ]
      exact ih hlen' k
  | case2 l h =>
    intro hlen k
    match l, h with
    | [], _ => simp [repack_rg8]
    | [a], _ => simp at hlen
    | [a, b], _ => simp at hlen
    | [a, b, c], _ => simp at hlen
    | a :: b :: c :: d :: r, h => exact absurd rfl (h a b c d r)

theorem repack_rg8_length (pixels : List Nat) :
    (repack_rg8 pixels).length = pixels.length / 4 * 2 := by
  induction pixels using repack_rg8.induct with
  | case1 b0 b1 b2 b3 rest ih => simp [repack_rg8, ih]; omega
  | case2 l h =>
    match l, h with
    | [], _ => simp [repack_rg8]
    | [a], _ => simp [repack_rg8]
    | [a, b], _ => simp [repack_rg8]
    | [a, b, c], _ => simp [repack_rg8]
    | a :: b :: c :: d :: r, h => exact absurd rfl (h a b c d r)

/-- **C8.** Uploading 4-channel 8-bit source data into a 1-channel 8-bit
destination keeps exactly every 4th source byte in order (byte 0, 4, 8, ...),
a 2-channel destination keeps the first two bytes of every 4-byte source
pixel, a 4-channel destination receives the data unchanged, and an upload to
any other destination format fails explicitly with nothing handed to
`UpdateSubresource`. -/
theorem upload_texture_repacking :
    (∀ pixels : List Nat, pixels.length % 4 = 0 →
      upload_texture_data texture_format.r8 pixels = some (repack_r8 pixels) ∧
      (repack_r8 pixels).length = pixels.length / 4 ∧
      ∀ k, (repack_r8 pixels)[k]? = pixels[4 * k]?) ∧
    (∀ pixels : List Nat, pixels.length % 4 = 0 →
      upload_texture_data texture_format.rg8 pixels = some (repack_rg8 pixels) ∧
      (repack_rg8 pixels).length = pixels.length / 4 * 2 ∧
      ∀ k, (repack_rg8 pixels)[2 * k]? = pixels[4 * k]? ∧
           (repack_rg8 pixels)[2 * k + 1]? = pixels[4 * k + 1]?) ∧
    (∀ pixels : List Nat,
      upload_texture_data texture_format.rgba8 pixels = some pixels) ∧
    (∀ (fmt : texture_format) (pixels : List Nat),
      fmt ≠ texture_format.r8 → fmt ≠ texture_format.rg8 →
      fmt ≠ texture_format.rgba8 → upload_texture_data fmt pixels = none) := by
  refine ⟨fun pixels h => ⟨rfl, repack_r8_length pixels, repack_r8_getElem? pixels h⟩,
    fun pixels h => ⟨rfl, repack_rg8_length pixels, repack_rg8_getElem? pixels h⟩,
    fun pixels => rfl, fun fmt pixels h1 h2 h3 => ?_⟩
  cases fmt <;> first | rfl | contradiction

theorem upload_texture_repacking_witness :
    upload_texture_data texture_format.r8 [10, 11, 12, 13, 20, 21, 22, 23] =
      some [10, 20] ∧
    (repack_r8 [10, 11, 12, 13, 20, 21, 22, 23])[1]? =
      [10, 11, 12, 13, 20, 21, 22, 23][4]? ∧
    (repack_rg8 [10, 11, 12, 13, 20, 21, 22, 23])[3]? =
      [10, 11, 12, 13, 20, 21, 22, 23][5]? ∧
    upload_texture_data texture_format.rgb10a2 [1, 2, 3, 4] = none := by
  refine ⟨by decide, ?_, ?_, ?_⟩
  · exact (upload_texture_repacking.1 [10, 11, 12, 13, 20, 21, 22, 23]
      (by decide)).2.2 1
  · exact ((upload_texture_repacking.2.1 [10, 11, 12, 13, 20, 21, 22, 23]
      (by decide)).2.2 1).2
  · exact upload_texture_repacking.2.2.2 texture_format.rgb10a2 [1, 2, 3, 4]
      (by decide) (by decide) (by decide)

theorem land_ffc00_shr10 (x : Nat) :
    (x &&& 0xFFC00) >>> 10 = x / 2 ^ 10 % 2 ^ 10 := by
  apply Nat.eq_of_testBit_eq
  intro j
  rw [Nat.testBit_shiftRight, Nat.testBit_land, ← Nat.shiftRight_eq_div_pow,
    Nat.testBit_mod_two_pow, Nat.testBit_shiftRight]
  by_cases hj : j < 10
  · have hbit : Nat.testBit 0xFFC00 (10 + j) = true := by
      interval_cases j <;> decide
    simp [hbit, hj]
  · have hlt : (0xFFC00 : Nat) < 2 ^ (10 + j) := by
      calc (0xFFC00 : Nat) < 2 ^ 20 := by norm_num
        _ ≤ 2 ^ (10 + j) := Nat.pow_le_pow_right (by norm_num) (by omega)
    have hbit : Nat.testBit 0xFFC00 (10 + j) = false :=
      Nat.testBit_lt_two_pow hlt
    simp [hbit, hj]

theorem land_3ff00000_shr20 (x : Nat) :
    (x &&& 0x3FF00000) >>> 20 = x / 2 ^ 20 % 2 ^ 10 := by
  apply Nat.eq_of_testBit_eq
  intro j
  rw [Nat.testBit_shiftRight, Nat.testBit_land, ← Nat.shiftRight_eq_div_pow,
    Nat.testBit_mod_two_pow, Nat.testBit_shiftRight]
  by_cases hj : j < 10
  · have hbit : Nat.testBit 0x3FF00000 (20 + j) = true := by
      interval_cases j <;> decide
    simp [hbit, hj]
  · have hlt : (0x3FF00000 : Nat) < 2 ^ (20 + j) := by
      calc (0x3FF00000 : Nat) < 2 ^ 30 := by norm_num
        _ ≤ 2 ^ (20 + j) := Nat.pow_le_pow_right (by norm_num) (by omega)
    have hbit : Nat.testBit 0x3FF00000 (20 + j) = false :=
      Nat.testBit_lt_two_pow hlt
    simp [hbit, hj]

theorem convert_10bit_pixel_eq (r g b a : Nat) (hr : r < 1024) (hg : g < 1024)
    (hb : b < 1024) (ha : a < 4) :
    convert_10bit_pixel (r + 1024 * g + 1048576 * b + 1073741824 * a) =
      [r / 4, g / 4, b / 4, 255] := by
  set x := r + 1024 * g + 1048576 * b + 1073741824 * a with hx
  have h10 : (2 : Nat) ^ 10 = 1024 := by norm_num
  have h20 : (2 : Nat) ^ 20 = 1048576 := by norm_num
  have h1 : x &&& 0x3FF = r := by
    rw [show (0x3FF : Nat) = 2 ^ 10 - 1 from by norm_num,
      Nat.and_pow_two_sub_one_eq_mod, h10]
    omega
  have h2 : (x &&& 0xFFC00) >>> 10 = g := by
    rw [land_ffc00_shr10, h10]; omega
  have h3 : (x &&& 0x3FF00000) >>> 20 = b := by
    rw [land_3ff00000_shr20, h20, h10]; omega
  have hmask : ∀ c : Nat, c < 1024 → c / 4 &&& 0xFF = c / 4 := by
    intro c hc
    rw [show (0xFF : Nat) = 2 ^ 8 - 1 from by norm_num]
    exact Nat.and_pow_two_sub_one_of_lt_two_pow
      (lt_of_lt_of_le (by omega : c / 4 < 256) (by norm_num))
  simp only [convert_10bit_pixel, h1, h2, h3, hmask r hr, hmask g hg, hmask b hb]

/-- **C7.** Screenshot capture: a 10-bit packed pixel is converted per channel
by integer division by 4 (no rounding) with the alpha byte forced to full
opacity, so three channels of 1023 produce the bytes 255,255,255,255; in the
8-bit path the output is RGBA-ordered whether the storage order is RGBA or
BGRA, with the alpha byte forced to 255; and output rows follow source rows
top-to-bottom. -/
theorem screenshot_conversion (is_10bit is_bgra : Bool)
    (rows : List (List Nat)) :
    (∀ r g b a : Nat, r < 1024 → g < 1024 → b < 1024 → a < 4 →
      convert_10bit_pixel (r + 1024 * g + 1048576 * b + 1073741824 * a) =
        [r / 4, g / 4, b / 4, 255]) ∧
    (∀ a : Nat, a < 4 →
      convert_10bit_pixel (1023 + 1024 * 1023 + 1048576 * 1023 +
        1073741824 * a) = [255, 255, 255, 255]) ∧
    (∀ (b0 b1 b2 b3 : Nat) (rest : List Nat),
      convert_8bit_row true (b0 :: b1 :: b2 :: b3 :: rest) =
        b2 :: b1 :: b0 :: 255 :: convert_8bit_row true rest) ∧
    (∀ (b0 b1 b2 b3 : Nat) (rest : List Nat),
      convert_8bit_row false (b0 :: b1 :: b2 :: b3 :: rest) =
        b0 :: b1 :: b2 :: 255 :: convert_8bit_row false rest) ∧
    (∀ y : Nat, (capture_screenshot_rows is_10bit is_bgra rows)[y]? =
      (rows[y]?).map fun row =>
        if is_10bit then convert_10bit_row row
        else convert_8bit_row is_bgra row) := by
  refine ⟨convert_10bit_pixel_eq, ?_, fun b0 b1 b2 b3 rest => rfl,
    fun b0 b1 b2 b3 rest => rfl, ?_⟩
  · intro a ha
    rw [convert_10bit_pixel_eq 1023 1023 1023 a (by omega) (by omega)
      (by omega) ha]
  · intro y
    simp [capture_screenshot_rows]

theorem screenshot_conversion_witness :
    convert_10bit_pixel (1023 + 1024 * 1023 + 1048576 * 1023 +
      1073741824 * 3) = [255, 255, 255, 255] ∧
    convert_10bit_pixel (513 + 1024 * 2 + 1048576 * 7 + 1073741824 * 1) =
      [128, 0, 1, 255] ∧
    (capture_screenshot_rows false true [[1, 2, 3, 4]])[0]? =
      some [3, 2, 1, 255] :=
  ⟨(screenshot_conversion true true []).2.1 3 (by omega),
   by
    have h := (screenshot_conversion true true []).1 513 2 7 1 (by omega)
      (by omega) (by omega) (by omega)
    simpa using h,
   by
    have h := (screenshot_conversion false true [[1, 2, 3, 4]]).2.2.2.2 0
    simpa [convert_8bit_row] using h⟩

theorem exec_pass_bound (w h : Nat) (c : Bool) (p : pass_info10) :
    (exec_pass w h c p).1.bound_effect_depthstencil =
      binds_effect_depthstencil w h p := by
  by_cases h1 : p.viewport_width = w <;> by_cases h2 : p.viewport_height = h <;>
    simp [exec_pass, binds_effect_depthstencil, h1, h2]

theorem exec_pass_cleared_of_true (w h : Nat) (p : pass_info10) :
    (exec_pass w h true p).1.cleared_effect_stencil = false ∧
      (exec_pass w h true p).2 = true := by
  by_cases h1 : p.viewport_width = w <;> by_cases h2 : p.viewport_height = h <;>
    simp [exec_pass, h1, h2]

theorem exec_pass_of_false (w h : Nat) (p : pass_info10) :
    (exec_pass w h false p).1.cleared_effect_stencil =
        binds_effect_depthstencil w h p ∧
      (exec_pass w h false p).2 = binds_effect_depthstencil w h p := by
  by_cases h1 : p.viewport_width = w <;> by_cases h2 : p.viewport_height = h <;>
    simp [exec_pass, binds_effect_depthstencil, h1, h2]

theorem exec_passes_cleared_of_true (w h : Nat) (ps : List pass_info10) :
    ∀ e ∈ exec_passes w h ps true, e.cleared_effect_stencil = false := by
  induction ps with
  | nil => intro e he; simp [exec_passes] at he
  | cons p rest ih =>
    intro e he
    rw [exec_passes, (exec_pass_cleared_of_true w h p).2] at he
    rcases List.mem_cons.mp he with rfl | hmem
    · exact (exec_pass_cleared_of_true w h p).1
    · exact ih e hmem

theorem exec_passes_bound (w h : Nat) (ps : List pass_info10) (c : Bool) :
    ∀ (i : Nat) (p : pass_info10) (e : pass_exec),
      ps[i]? = some p → (exec_passes w h ps c)[i]? = some e →
      e.bound_effect_depthstencil = binds_effect_depthstencil w h p := by
  induction ps generalizing c with
  | nil => intro i p e hp _; simp at hp
  | cons q rest ih =>
    intro i p e hp he
    cases i with
    | zero =>
      simp only [List.getElem?_cons_zero, Option.some.injEq] at hp
      rw [exec_passes] at he
      simp only [List.getElem?_cons_zero, Option.some.injEq] at he
      rw [← he, ← hp]
      exact exec_pass_bound w h c q
    | succ i =>
      rw [exec_passes] at he
      simp only [List.getElem?_cons_succ] at hp he
      exact ih _ i p e hp he

theorem exec_passes_cleared_char (w h : Nat) (ps : List pass_info10) :
    ∀ (i : Nat) (e : pass_exec),
      (exec_passes w h ps false)[i]? = some e →
      (e.cleared_effect_stencil = true ↔
        (∃ p, ps[i]? = some p ∧ binds_effect_depthstencil w h p = true) ∧
        ∀ j < i, ∀ q, ps[j]? = some q →
          binds_effect_depthstencil w h q = false) := by
  induction ps with
  | nil => intro i e he; simp [exec_passes] at he
  | cons p rest ih =>
    intro i e he
    rw [exec_passes, (exec_pass_of_false w h p).2] at he
    cases i with
    | zero =>
      simp only [List.getElem?_cons_zero, Option.some.injEq] at he
      subst he
      rw [(exec_pass_of_false w h p).1]
      constructor
      · intro hb
        exact ⟨⟨p, by simp, hb⟩, fun j hj => by omega⟩
      · rintro ⟨⟨p', hp', hb⟩, _⟩
        simp only [List.getElem?_cons_zero, Option.some.injEq] at hp'
        rwa [hp']
    | succ i =>
      simp only [List.getElem?_cons_succ] at he
      cases hB : binds_effect_depthstencil w h p with
      | true =>
        rw [hB] at he
        have hcl := exec_passes_cleared_of_true w h rest e
          (List.getElem?_mem he)
        rw [hcl]
        constructor
        · intro hfalse; exact absurd hfalse (by simp)
        · rintro ⟨_, hnone⟩
          have := hnone 0 (by omega) p (by simp)
          rw [this] at hB; exact absurd hB (by simp)
      | false =>
        rw [hB] at he
        rw [ih i e he]
        constructor
        · rintro ⟨⟨p', hp', hb⟩, hnone⟩
          refine ⟨⟨p', by simpa using hp', hb⟩, ?_⟩
          intro j hj q hq
          cases j with
          | zero =>
            simp only [List.getElem?_cons_zero, Option.some.injEq] at hq
            rw [← hq]; exact hB
          | succ j =>
            simp only [List.getElem?_cons_succ] at hq
            exact hnone j (by omega) q hq
        · rintro ⟨⟨p', hp', hb⟩, hnone⟩
          simp only [List.getElem?_cons_succ] at hp'
          refine ⟨⟨p', hp', hb⟩, ?_⟩
          intro j hj q hq
          exact hnone (j + 1) (by omega) q (by simpa using hq)

theorem exec_passes_countP (w h : Nat) (ps : List pass_info10) (c : Bool) :
    (exec_passes w h ps c).countP (fun e => e.cleared_effect_stencil) ≤ 1 := by
  induction ps generalizing c with
  | nil => simp [exec_passes]
  | cons p rest ih =>
    rw [exec_passes]
    cases c with
    | true =>
      have h0 : (exec_passes w h rest true).countP
          (fun e => e.cleared_effect_stencil) = 0 := by
        rw [List.countP_eq_zero]
        intro e he
        simp [exec_passes_cleared_of_true w h rest e he]
      rw [(exec_pass_cleared_of_true w h p).2, List.countP_cons, h0,
        (exec_pass_cleared_of_true w h p).1]
      simp
    | false =>
      rw [(exec_pass_of_false w h p).2, List.countP_cons]
      cases hB : binds_effect_depthstencil w h p with
      | true =>
        have h0 : (exec_passes w h rest true).countP
            (fun e => e.cleared_effect_stencil) = 0 := by
          rw [List.countP_eq_zero]
          intro e he
          simp [exec_passes_cleared_of_true w h rest e he]
        rw [h0, (exec_pass_of_false w h p).1, hB]
        simp
      | false =>
        rw [(exec_pass_of_false w h p).1, hB]
        simpa using ih false

theorem exec_passes_no_stencil (w h : Nat) (ps : List pass_info10) (c : Bool) :
    (∀ p ∈ ps, p.stencil_enable = false) →
    ∀ e ∈ exec_passes w h ps c,
      e.bound_effect_depthstencil = false ∧
      e.cleared_effect_stencil = false := by
  induction ps generalizing c with
  | nil => intro _ e he; simp [exec_passes] at he
  | cons p rest ih =>
    intro hall e he
    have hp := hall p (List.mem_cons_self p rest)
    rw [exec_passes] at he
    rcases List.mem_cons.mp he with rfl | hmem
    · constructor
      · rw [exec_pass_bound]; simp [binds_effect_depthstencil, hp]
      · by_cases h1 : p.viewport_width = w ∧ p.viewport_height = h <;>
          simp [exec_pass, h1, hp]
    · exact ih _ (fun q hq => hall q (List.mem_cons_of_mem _ hq)) e hmem

theorem effective_pass_stencil (w h : Nat) (p : pass_info10) :
    (effective_pass w h p).stencil_enable = p.stencil_enable := by
  by_cases hp : p.has_named_render_target <;> simp [effective_pass, hp]

/-- **C10 counterexample.** The code decides whether to bind the shared
effect depth-stencil surface from the pass viewport and the stencil flag
alone: a stencil-enabled pass rendering into a *named* render target whose
declared viewport equals the output size also gets the surface bound, so the
binding condition is not "full-viewport passes targeting the main output". -/
theorem effect_stencil_main_output_counterexample :
    ¬ (∀ (w h : Nat) (passes : List pass_info10) (i : Nat)
        (p : pass_info10) (e : pass_exec),
        (passes.map (effective_pass w h))[i]? = some p →
        (render_technique_stencil w h passes)[i]? = some e →
        (e.bound_effect_depthstencil = true ↔
          spec_binds_effect_depthstencil w h p = true)) := by
  intro hall
  have h := hall 1920 1080 [⟨true, 1920, 1080, true⟩] 0
    ⟨true, 1920, 1080, true⟩ ⟨true, true⟩ (by decide) (by decide)
  exact absurd (h.mp (by decide)) (by decide)

/-- **C10 (amended).** During one technique invocation the shared effect
depth-stencil surface is bound exactly for the passes whose (effective)
viewport equals the main output dimensions and that enable stencil testing —
regardless of whether the pass renders into the main output or a named
render target — and its stencil plane is cleared at most once per technique
invocation, precisely at the first such pass, never when no pass in the
technique enables stencil. -/
theorem effect_stencil_bound_and_cleared_once (w h : Nat)
    (passes : List pass_info10) :
    (∀ (i : Nat) (p : pass_info10) (e : pass_exec),
      (passes.map (effective_pass w h))[i]? = some p →
      (render_technique_stencil w h passes)[i]? = some e →
      e.bound_effect_depthstencil = binds_effect_depthstencil w h p) ∧
    (render_technique_stencil w h passes).countP
        (fun e => e.cleared_effect_stencil) ≤ 1 ∧
    (∀ (i : Nat) (e : pass_exec),
      (render_technique_stencil w h passes)[i]? = some e →
      (e.cleared_effect_stencil = true ↔
        (∃ p, (passes.map (effective_pass w h))[i]? = some p ∧
          binds_effect_depthstencil w h p = true) ∧
        ∀ j < i, ∀ q, (passes.map (effective_pass w h))[j]? = some q →
          binds_effect_depthstencil w h q = false)) ∧
    ((∀ p ∈ passes, p.stencil_enable = false) →
      ∀ e ∈ render_technique_stencil w h passes,
        e.bound_effect_depthstencil = false ∧
        e.cleared_effect_stencil = false) := by
  refine ⟨fun i p e hp he => exec_passes_bound w h _ false i p e hp he,
    exec_passes_countP w h _ false,
    fun i e he => exec_passes_cleared_char w h _ i e he, ?_⟩
  intro hall
  apply exec_passes_no_stencil w h _ false
  intro p' hp'
  rcases List.mem_map.mp hp' with ⟨p, hp, rfl⟩
  rw [effective_pass_stencil]
  exact hall p hp

theorem effect_stencil_bound_and_cleared_once_witness :
    (render_technique_stencil 1920 1080
        [⟨false, 0, 0, true⟩, ⟨false, 0, 0, true⟩]).countP
        (fun e => e.cleared_effect_stencil) ≤ 1 ∧
    (∀ e ∈ render_technique_stencil 1920 1080 [⟨false, 5, 5, false⟩],
      e.bound_effect_depthstencil = false ∧
      e.cleared_effect_stencil = false) :=
  ⟨(effect_stencil_bound_and_cleared_once 1920 1080
      [⟨false, 0, 0, true⟩, ⟨false, 0, 0, true⟩]).2.1,
   (effect_stencil_bound_and_cleared_once 1920 1080
      [⟨false, 5, 5, false⟩]).2.2.2 (by decide)⟩

theorem fnv_foldl_lt (bytes : List Nat) :
    ∀ h : Nat, h < 2 ^ 64 → (∀ b ∈ bytes, b < 256) →
      bytes.foldl fnv_step h < 2 ^ 64 := by
  induction bytes with
  | nil => intro h hh _; simpa using hh
  | cons b rest ih =>
    intro h hh hb
    rw [List.foldl_cons]
    apply ih
    · apply Nat.xor_lt_two_pow (Nat.mod_lt _ (by positivity))
      exact lt_of_lt_of_le (hb b (List.mem_cons_self b rest)) (by norm_num)
    · exact fun b' hb' => hb b' (List.mem_cons_of_mem b hb')

theorem fnv1a_hash_lt (bytes : List Nat) (hb : ∀ b ∈ bytes, b < 256) :
    fnv1a_hash bytes < 2 ^ 64 :=
  fnv_foldl_lt bytes 2166136261 (by norm_num) hb

theorem le_bytes4_lt (x : Nat) : ∀ b ∈ le_bytes4 x, b < 256 := by
  intro b hb
  simp only [le_bytes4, List.mem_cons, List.not_mem_nil, or_false] at hb
  rcases hb with rfl | rfl | rfl | rfl <;> exact Nat.mod_lt _ (by norm_num)

theorem sampler_desc_bytes_lt (d : sampler_desc) :
    ∀ b ∈ sampler_desc_bytes d, b < 256 := by
  intro b hb
  simp only [sampler_desc_bytes, List.mem_append] at hb
  rcases hb with
    ((((((((((((h | h) | h) | h) | h) | h) | h) | h) | h) | h) | h) | h) | h) <;>
    exact le_bytes4_lt _ b h

/-- Two members of the descriptor family with equal serialized bytes carry
the same 96-bit index: the serialization loses no content. -/
theorem collision_desc_bytes_inj (n1 n2 : Nat) (h1 : n1 < 2 ^ 96)
    (h2 : n2 < 2 ^ 96) :
    sampler_desc_bytes (collision_desc n1) =
      sampler_desc_bytes (collision_desc n2) → n1 = n2 := by
  intro h
  simp only [sampler_desc_bytes, collision_desc, le_bytes4, List.cons_append,
    List.nil_append, List.cons.injEq, and_true] at h
  have h96 : (2 : Nat) ^ 96 = 79228162514264337593543950336 := by norm_num
  rw [h96] at h1 h2
  omega

/-- Pigeonhole: the 64-bit FNV-1a content hash cannot separate the 2 ^ 96
distinct descriptor contents of the family, so two differing fully populated
sampler descriptors share a hash. -/
theorem fnv1a_sampler_collision :
    ∃ n1 n2 : Fin (2 ^ 96), n1 ≠ n2 ∧
      fnv1a_hash (sampler_desc_bytes (collision_desc n1.val)) =
      fnv1a_hash (sampler_desc_bytes (collision_desc n2.val)) := by
  have hcard : Fintype.card (Fin (2 ^ 64)) < Fintype.card (Fin (2 ^ 96)) := by
    simp only [Fintype.card_fin]
    norm_num
  obtain ⟨a, b, hne, heq⟩ := Fintype.exists_ne_map_eq_of_card_lt
    (fun n : Fin (2 ^ 96) =>
      (⟨fnv1a_hash (sampler_desc_bytes (collision_desc n.val)),
        fnv1a_hash_lt _ (sampler_desc_bytes_lt _)⟩ : Fin (2 ^ 64))) hcard
  exact ⟨a, b, hne, by simpa using congrArg Fin.val heq⟩

/-- Requesting a sampler whose descriptor hashes like an already-cached one
returns the cached handle (the cache is keyed by the hash alone). -/
theorem cache_hit_after_insert (c : sampler_cache) (d1 d2 : sampler_desc)
    (hh : fnv1a_hash (sampler_desc_bytes d1) =
      fnv1a_hash (sampler_desc_bytes d2)) :
    (cache_get_or_create (cache_get_or_create c d1).2 d2).1 =
      (cache_get_or_create c d1).1 := by
  have hh' : fnv1a_hash (sampler_desc_bytes d2) =
      fnv1a_hash (sampler_desc_bytes d1) := hh.symm
  cases hl : c.entries.lookup (fnv1a_hash (sampler_desc_bytes d1)) with
  | some v => simp [cache_get_or_create, hl, hh']
  | none => simp [cache_get_or_create, hl, hh', List.lookup]

/-- **C2 counterexample.** `_effect_sampler_states` is keyed by the 64-bit
FNV-1a hash of the descriptor bytes with no equality fallback, and the 64-bit
hash cannot be injective on the descriptors' 96 bits of float content: there
exist two sampler descriptors with differing byte content whose second
request is served the first descriptor's cached handle, so differing content
does not always yield distinct handles. -/
theorem sampler_cache_distinct_content_counterexample :
    ¬ (∀ d1 d2 : sampler_desc,
        sampler_desc_bytes d1 ≠ sampler_desc_bytes d2 →
        (cache_get_or_create
            (cache_get_or_create empty_sampler_cache d1).2 d2).1 ≠
          (cache_get_or_create empty_sampler_cache d1).1) := by
  intro hall
  obtain ⟨n1, n2, hne, hh⟩ := fnv1a_sampler_collision
  have hbytes : sampler_desc_bytes (collision_desc n1.val) ≠
      sampler_desc_bytes (collision_desc n2.val) := fun hb =>
    hne (Fin.ext (collision_desc_bytes_inj n1.val n2.val n1.isLt n2.isLt hb))
  exact hall _ _ hbytes
    (cache_hit_after_insert empty_sampler_cache _ _ hh)

/-- **C2 (amended).** For every pair of sampler configurations processed by
effect initialization, equal byte content of the fully populated descriptor
yields the same cached sampler handle — both from one cache state and when
the second request follows the first's insertion — and two requests served
distinct handles necessarily had differing byte content (the converse fails:
the cache is keyed by the 64-bit content hash alone, so hash-colliding
descriptors of differing content share a handle); the cache survives
unloading any single effect and is cleared exactly when all effects
unload. -/
theorem sampler_cache_correctness :
    (∀ (c : sampler_cache) (d1 d2 : sampler_desc),
      sampler_desc_bytes d1 = sampler_desc_bytes d2 →
      (cache_get_or_create c d1).1 = (cache_get_or_create c d2).1) ∧
    (∀ (c : sampler_cache) (d1 d2 : sampler_desc),
      sampler_desc_bytes d1 = sampler_desc_bytes d2 →
      (cache_get_or_create (cache_get_or_create c d1).2 d2).1 =
        (cache_get_or_create c d1).1) ∧
    (∀ (c : sampler_cache) (d1 d2 : sampler_desc),
      (cache_get_or_create (cache_get_or_create c d1).2 d2).1 ≠
        (cache_get_or_create c d1).1 →
      sampler_desc_bytes d1 ≠ sampler_desc_bytes d2) ∧
    (∀ (s : runtime_effect_state) (index : Nat),
      (unload_effect s index).effect_sampler_states =
        s.effect_sampler_states) ∧
    (∀ s : runtime_effect_state,
      (unload_effects s).effect_sampler_states = empty_sampler_cache) := by
  have hsame : ∀ (c : sampler_cache) (d1 d2 : sampler_desc),
      sampler_desc_bytes d1 = sampler_desc_bytes d2 →
      (cache_get_or_create (cache_get_or_create c d1).2 d2).1 =
        (cache_get_or_create c d1).1 :=
    fun c d1 d2 h => cache_hit_after_insert c d1 d2 (by rw [h])
  refine ⟨?_, hsame, ?_, fun s index => rfl, fun s => rfl⟩
  · intro c d1 d2 h
    unfold cache_get_or_create
    rw [h]
  · intro c d1 d2 hne
    exact fun h => hne (hsame c d1 d2 h)

theorem sampler_cache_correctness_witness :
    (cache_get_or_create
        (cache_get_or_create empty_sampler_cache ⟨21, 3, 3, 3, 0, 0, 0⟩).2
        ⟨21, 3, 3, 3, 0, 0, 0⟩).1 =
      (cache_get_or_create empty_sampler_cache ⟨21, 3, 3, 3, 0, 0, 0⟩).1 ∧
    (unload_effect ⟨[⟨0, some 1⟩], [some 2], ⟨[(9, 0)], 1⟩⟩
        0).effect_sampler_states = (⟨[(9, 0)], 1⟩ : sampler_cache) ∧
    (unload_effects
        ⟨[⟨0, some 1⟩], [some 2], ⟨[(9, 0)], 1⟩⟩).effect_sampler_states =
      empty_sampler_cache :=
  ⟨sampler_cache_correctness.2.1 empty_sampler_cache
      ⟨21, 3, 3, 3, 0, 0, 0⟩ ⟨21, 3, 3, 3, 0, 0, 0⟩ rfl,
   sampler_cache_correctness.2.2.2.1 ⟨[⟨0, some 1⟩], [some 2], ⟨[(9, 0)], 1⟩⟩ 0,
   sampler_cache_correctness.2.2.2.2 ⟨[⟨0, some 1⟩], [some 2], ⟨[(9, 0)], 1⟩⟩⟩

theorem depth_clear_index_zero_resolves_to_uint_max_witness :
    load_depth_clear_index_override 0 = UINT_MAX ∧
    load_depth_clear_index_override 7 ≠ 0 ∧
    find_best_clear_index_arg true (load_depth_clear_index_override 0) ≠ 0 ∧
    find_best_clear_index_arg false (load_depth_clear_index_override 0) = 0 :=
  ⟨(depth_clear_index_zero_resolves_to_uint_max 0).1,
   (depth_clear_index_zero_resolves_to_uint_max 7).2.1,
   (depth_clear_index_zero_resolves_to_uint_max 0).2.2.1,
   (depth_clear_index_zero_resolves_to_uint_max 0).2.2.2⟩
